import Mathlib

/-!
Verification of `fix_compilation_errors.py` (veza-chat-server), a rule-based
source rewriter built on sequential `re.sub` calls.  The regular expressions
used by the script fall into a small fragment: literal text, a single
any-character (`.`), and greedy character-class repetitions (`[^"]+`,
`[^)]+`, `.*`), optionally captured.  We embed that fragment, the
substitution loop of `re.sub` (leftmost match, scan continues after the
match, optional count bound), the per-file rule sets, and the file-level
control flow (read, transform, unconditional write, report line).
-/

/-- Pattern token of the regex fragment used by the script: a literal
run of characters, a single character constrained by a class (`.`),
or a greedy repetition over a character class (`[^x]+`, `.*`),
optionally captured as a group. -/
inductive RTok where
  | lit (s : List Char)
  | one (p : Char → Bool)
  | rep (p : Char → Bool) (min1 : Bool) (cap : Bool)

/-- Replacement-template token: literal text or a backreference `\n`
(0-indexed here: `ref 0` is Python's `\1`). -/
inductive Tmpl where
  | lit (s : List Char)
  | ref (i : Nat)

/-- All ways a token list can match a prefix of `s`, most preferred first
(greedy repetitions try the longest run first, as Python's backtracking
does).  Each result is the list of captured groups together with the
remaining suffix of `s`. -/
def matchAll : List RTok → List Char → List (List (List Char) × List Char)
  | [], s => [([], s)]
  | .lit l :: ts, s =>
    if l.isPrefixOf s then matchAll ts (s.drop l.length) else []
  | .one p :: ts, s =>
    match s with
    | [] => []
    | c :: rest => if p c then matchAll ts rest else []
  | .rep p min1 cap :: ts, s =>
    let lo := if min1 then 1 else 0
    let maxRun := (s.takeWhile p).length
    (((List.range (maxRun + 1)).filter (fun k => decide (lo ≤ k))).reverse).flatMap
      (fun k => (matchAll ts (s.drop k)).map
        (fun pr => ((if cap then [s.take k] else []) ++ pr.1, pr.2)))

/-- The match Python's engine reports at this position: the most
preferred one (leftmost alternatives resolved greedily). -/
def matchToks (ts : List RTok) (s : List Char) :
    Option (List (List Char) × List Char) :=
  (matchAll ts s).head?

/-- Instantiate a replacement template with the captured groups
(Python substitutes each `\n` by the text of group n). -/
def instTmpl (caps : List (List Char)) : List Tmpl → List Char
  | [] => []
  | .lit l :: ts => l ++ instTmpl caps ts
  | .ref i :: ts => caps.getD i [] ++ instTmpl caps ts

/-- Fueled scanner for `re.sub`: at each position try the pattern; on a
match emit the instantiated replacement and continue after the matched
text, otherwise keep the character and move one position right.  `cnt`
models the `count` argument (`none` = replace all, `some n` = at most
`n` replacements).  Fuel is an upper bound on the number of scanning
steps; `rsub` always supplies enough. -/
def rsubF (pat : List RTok) (tmpl : List Tmpl) :
    Nat → Option Nat → List Char → List Char × Nat
  | _, _, [] => ([], 0)
  | 0, _, s => (s, 0)
  | fuel + 1, cnt, c :: rest =>
    if cnt = some 0 then (c :: rest, 0)
    else
      match matchToks pat (c :: rest) with
      | some (caps, rem) =>
        if rem.length ≤ rest.length then
          let res := rsubF pat tmpl fuel (cnt.map (· - 1)) rem
          (instTmpl caps tmpl ++ res.1, res.2 + 1)
        else (c :: rest, 0)
      | none =>
        let res := rsubF pat tmpl fuel cnt rest
        (c :: res.1, res.2)

/-- `re.sub(pat, tmpl, s, count)`: the rewritten text together with the
number of replacements performed. -/
def rsub (pat : List RTok) (tmpl : List Tmpl) (cnt : Option Nat)
    (s : List Char) : List Char × Nat :=
  rsubF pat tmpl s.length cnt s

/-- One `re.sub` call of the script: a pattern, a replacement template
and an optional count bound. -/
structure Rule where
  pat : List RTok
  tmpl : List Tmpl
  cnt : Option Nat

/-- Apply the rules in order, each to the output of the previous one,
accumulating the total number of replacements — the shape of the
script's sequential `content = re.sub(...)` statements. -/
def applyRules : List Rule → List Char → List Char × Nat
  | [], s => (s, 0)
  | r :: rs, s =>
    let res := rsub r.pat r.tmpl r.cnt s
    let res2 := applyRules rs res.1
    (res2.1, res.2 + res2.2)

/-- Character class `[^"]` of the PermissionDenied / configuration_error patterns. -/
def notQuote (c : Char) : Bool := decide (c ≠ '"')

/-- Character class `[^)]` of the validate_room_name / sanitize_content patterns. -/
def notRParen (c : Char) : Bool := decide (c ≠ ')')

/-- Character class of Python's `.` (any character except a newline). -/
def notNewline (c : Char) : Bool := decide (c ≠ '\n')

/-- A purely literal substitution rule (pattern and replacement free of
regex metacharacters once unescaped), applied without a count bound. -/
def litRule (p r : String) : Rule :=
  ⟨[.lit p.data], [.lit r.data], none⟩

/-- Lines 17-21: `\.map_err\(ChatError::Database\)\?` is a literal pattern. -/
def ruleMapErrDatabase : Rule :=
  litRule ".map_err(ChatError::Database)?"
    ".map_err(|e| ChatError::database_error(\"database_operation\", e))?"

/-- Lines 24-28: `ChatError::PermissionDenied\("([^"]+)"\\.to_string\(\)\)`.
The raw-string `\\.` is a literal backslash followed by any character. -/
def rulePermissionDeniedToString : Rule :=
  ⟨[.lit "ChatError::PermissionDenied(\"".data, .rep notQuote true true,
     .lit "\"\\".data, .one notNewline, .lit "to_string())".data],
   [.lit "ChatError::PermissionDenied \x7b message: \"".data, .ref 0,
     .lit "\".to_string() \x7d".data], none⟩

/-- Lines 30-34: `ChatError::PermissionDenied\("([^"]+)"\)`. -/
def rulePermissionDenied : Rule :=
  ⟨[.lit "ChatError::PermissionDenied(\"".data, .rep notQuote true true,
     .lit "\")".data],
   [.lit "ChatError::PermissionDenied \x7b message: \"".data, .ref 0,
     .lit "\".to_string() \x7d".data], none⟩

/-- Lines 37-41: drop the stray closing parenthesis after ReactionAlreadyExists. -/
def ruleReactionAlreadyExists : Rule :=
  litRule "ChatError::ReactionAlreadyExists)" "ChatError::ReactionAlreadyExists"

/-- Lines 43-47: drop the stray closing parenthesis after ReactionNotFound. -/
def ruleReactionNotFound : Rule :=
  litRule "ChatError::ReactionNotFound)" "ChatError::ReactionNotFound"

/-- Lines 50-54: `ChatError::configuration_error\("([^"]+)"\\.to_string\(\)\)`. -/
def ruleConfigurationError : Rule :=
  ⟨[.lit "ChatError::configuration_error(\"".data, .rep notQuote true true,
     .lit "\"\\".data, .one notNewline, .lit "to_string())".data],
   [.lit "ChatError::configuration_error(\"".data, .ref 0, .lit "\")".data], none⟩

/-- Lines 57-61: rewrite the `row_to_message` signature (literal pattern). -/
def ruleRowToMessage : Rule :=
  litRule "async fn row_to_message(&self, row: sqlx::Row) -> Result<Message>"
    "async fn row_to_message<R: sqlx::Row>(&self, row: R) -> Result<Message>"

/-- Lines 64-70: the enumerated field names of `row_fields`. -/
def row_fields : List String :=
  ["id", "content", "author_id", "author_username", "room_id",
   "recipient_id", "recipient_username", "created_at", "updated_at",
   "status", "is_pinned", "is_edited", "original_content",
   "parent_message_id", "thread_count", "is_flagged", "moderation_notes",
   "message_type", "mention_ids"]

/-- Lines 72-77: the rule built for one field name: pattern `row\.{field}`
(receiver is the literal identifier `row`), replacement
`row.try_get("{field}").unwrap_or_default()`. -/
def fieldRule (field : String) : Rule :=
  ⟨[.lit ("row.".data ++ field.data)],
   [.lit ("row.try_get(\"".data ++ field.data ++ "\").unwrap_or_default()".data)],
   none⟩

/-- The field-access expansion: one rule per field name, in list order. -/
def fieldRules (fields : List String) : List Rule :=
  fields.map fieldRule

/-- The full ordered rule set of `fix_message_store_errors` (lines 17-77). -/
def messageStoreRules : List Rule :=
  [ruleMapErrDatabase, rulePermissionDeniedToString, rulePermissionDenied,
   ruleReactionAlreadyExists, ruleReactionNotFound, ruleConfigurationError,
   ruleRowToMessage] ++ fieldRules row_fields

/-- Lines 92-96: `self\.content_filter\.validate_room_name\(([^)]+)\)`,
replacement `self.content_filter.validate_content(\1)`. -/
def ruleValidateRoomName : Rule :=
  ⟨[.lit "self.content_filter.validate_room_name(".data,
     .rep notRParen true true, .lit ")".data],
   [.lit "self.content_filter.validate_content(".data, .ref 0, .lit ")".data],
   none⟩

/-- Lines 98-102: `self\.content_filter\.sanitize_content\(([^)]+)\)`. -/
def ruleSanitizeContent : Rule :=
  ⟨[.lit "self.content_filter.sanitize_content(".data,
     .rep notRParen true true, .lit ")".data],
   [.lit "self.content_filter.validate_content(".data, .ref 0, .lit ")".data],
   none⟩

/-- The ordered rule set of `fix_message_handler_errors` (lines 92-102). -/
def messageHandlerRules : List Rule :=
  [ruleValidateRoomName, ruleSanitizeContent]

/-- The literal text of the duplicated severity-mapping line
`Self::MessageTooLong \{ \.\. \} => 413,`. -/
def severityPat : List Char :=
  "Self::MessageTooLong \x7b .. \x7d => 413,".data

/-- Lines 117-122: scoped deletion of the duplicated line, `count=1`. -/
def ruleMessageTooLong : Rule :=
  ⟨[.lit severityPat], [], some 1⟩

/-- The rule set of `fix_error_severity` (lines 117-122). -/
def errorSeverityRules : List Rule :=
  [ruleMessageTooLong]

/-- Line 146: `use.*tungstenite::Message;\n` (`.*` is greedy and does not
cross a newline). -/
def ruleUseTungstenite : Rule :=
  ⟨[.lit "use".data, .rep notNewline false false,
     .lit "tungstenite::Message;\n".data], [], none⟩

/-- Line 147: remove every occurrence of the plain substring `, error`. -/
def ruleCommaError : Rule := litRule ", error" ""

/-- Line 148. -/
def ruleUseHashMap : Rule := litRule "use std::collections::HashMap;\n" ""

/-- Line 149. -/
def ruleCommaSystemTime : Rule := litRule ", SystemTime, UNIX_EPOCH" ""

/-- Line 150. -/
def ruleCommaDeserialize : Rule := litRule ", Deserialize" ""

/-- Line 151. -/
def ruleUseCrateResult : Rule := litRule "use crate::error::Result;\n" ""

/-- Line 152. -/
def ruleCommaUnixEpoch : Rule := litRule ", UNIX_EPOCH" ""

/-- Line 153. -/
def ruleCommaSerializeDeserialize : Rule := litRule ", Serialize, Deserialize" ""

/-- Line 154. -/
def ruleCommaWsResult : Rule := litRule ", Result as WsResult" ""

/-- Line 157. -/
def ruleBlockedBy : Rule := litRule "let blocked_by" "let _blocked_by"

/-- Line 158. -/
def ruleMutConfig : Rule := litRule "let mut config" "let config"

/-- The ordered rule set applied to each file of `fix_unused_imports`
(lines 146-158). -/
def unusedImportRules : List Rule :=
  [ruleUseTungstenite, ruleCommaError, ruleUseHashMap, ruleCommaSystemTime,
   ruleCommaDeserialize, ruleUseCrateResult, ruleCommaUnixEpoch,
   ruleCommaSerializeDeserialize, ruleCommaWsResult, ruleBlockedBy,
   ruleMutConfig]

/-- Content transformation of `fix_message_store_errors`, at `String` level. -/
def fixMessageStoreStr (c : String) : String :=
  String.mk (applyRules messageStoreRules c.data).1

/-- Content transformation of `fix_message_handler_errors`, at `String` level. -/
def fixMessageHandlerStr (c : String) : String :=
  String.mk (applyRules messageHandlerRules c.data).1

/-- Content transformation of `fix_error_severity`, at `String` level. -/
def fixErrorSeverityStr (c : String) : String :=
  String.mk (applyRules errorSeverityRules c.data).1

/-- Content transformation applied per file by `fix_unused_imports`. -/
def fixUnusedStr (c : String) : String :=
  String.mk (applyRules unusedImportRules c.data).1

/-- The exception a fixer can raise: `open(path, 'r')` on a missing path. -/
inductive FsError where
  | fileNotFound (path : String)
deriving DecidableEq

/-- State threaded through a run: the filesystem (association list from
path to content), the log of write operations performed (path and the
full content written), and the lines printed so far. -/
structure RunState where
  fs : List (String × String)
  writes : List (String × String)
  reports : List String
deriving DecidableEq

/-- Read a file: the content stored at the first entry for the path. -/
def readFS (fs : List (String × String)) (p : String) : Option String :=
  match fs with
  | [] => none
  | e :: rest => if e.1 == p then some e.2 else readFS rest p

/-- Write a file in place: replace the first entry for the path, or
append a fresh entry when the path does not exist yet. -/
def writeFS (fs : List (String × String)) (p c : String) :
    List (String × String) :=
  match fs with
  | [] => [(p, c)]
  | e :: rest => if e.1 == p then (e.1, c) :: rest else e :: writeFS rest p c

/-- Lines 9-82: read `src/message_store.rs` (raising FileNotFoundError when
missing), apply the rule set, then write the result back unconditionally
and print the report line. -/
def fix_message_store_errors (st : RunState) : Except FsError RunState :=
  match readFS st.fs "src/message_store.rs" with
  | none => .error (.fileNotFound "src/message_store.rs")
  | some content =>
    .ok ⟨writeFS st.fs "src/message_store.rs" (fixMessageStoreStr content),
         st.writes ++ [("src/message_store.rs", fixMessageStoreStr content)],
         st.reports ++ ["✅ Corrigé src/message_store.rs"]⟩

/-- Lines 84-107: the same shape for `src/message_handler.rs`. -/
def fix_message_handler_errors (st : RunState) : Except FsError RunState :=
  match readFS st.fs "src/message_handler.rs" with
  | none => .error (.fileNotFound "src/message_handler.rs")
  | some content =>
    .ok ⟨writeFS st.fs "src/message_handler.rs" (fixMessageHandlerStr content),
         st.writes ++ [("src/message_handler.rs", fixMessageHandlerStr content)],
         st.reports ++ ["✅ Corrigé src/message_handler.rs"]⟩

/-- Lines 109-127: the same shape for `src/error.rs`. -/
def fix_error_severity (st : RunState) : Except FsError RunState :=
  match readFS st.fs "src/error.rs" with
  | none => .error (.fileNotFound "src/error.rs")
  | some content =>
    .ok ⟨writeFS st.fs "src/error.rs" (fixErrorSeverityStr content),
         st.writes ++ [("src/error.rs", fixErrorSeverityStr content)],
         st.reports ++ ["✅ Corrigé src/error.rs"]⟩

/-- Lines 131-138: the fixed target list of `fix_unused_imports`. -/
def files_to_fix : List String :=
  ["src/hub/channel_websocket.rs",
   "src/hub/direct_messages_websocket.rs",
   "src/moderation.rs",
   "src/monitoring.rs",
   "src/security.rs",
   "src/websocket.rs"]

/-- Lines 140-163, one iteration: paths failing the `os.path.exists` test
are skipped with no read, no write and no report line; existing paths are
read, transformed, written back unconditionally and reported. -/
def fixOneUnused (st : RunState) (p : String) : RunState :=
  match readFS st.fs p with
  | none => st
  | some content =>
    ⟨writeFS st.fs p (fixUnusedStr content),
     st.writes ++ [(p, fixUnusedStr content)],
     st.reports ++ ["✅ Corrigé " ++ p]⟩

/-- Lines 129-163: the whole unused-imports pass. -/
def fix_unused_imports (st : RunState) : RunState :=
  files_to_fix.foldl fixOneUnused st

/-- Lines 173-176 of `main`: the four fixers in sequence.  An exception
raised by one of them propagates and aborts the remaining ones (there is
no try/except anywhere in the script). -/
def runFixes (st : RunState) : Except FsError RunState := do
  let st1 ← fix_message_store_errors st
  let st2 ← fix_message_handler_errors st1
  let st3 ← fix_error_severity st2
  pure (fix_unused_imports st3)

/-- Models the on-disk content states reachable during the write idiom of
lines 79-80: `open(file_path, 'w')` first truncates the file in place,
then `f.write(content)` emits the new content front to back.  State 0 is
the content before the `open`; the state after `open` is the empty file
(`take 0`); each later state holds a prefix of the new content, the last
one all of it. -/
def writeStates (original newContent : List Char) : List (List Char) :=
  original :: (List.range (newContent.length + 1)).map (fun k => newContent.take k)

/-- A count bound of zero makes the scanner leave the text untouched
(Python never calls `re.sub` this way; this is the state after the last
allowed replacement). -/
theorem rsubF_some_zero (pat : List RTok) (tmpl : List Tmpl) :
    ∀ (fuel : Nat) (s : List Char), rsubF pat tmpl fuel (some 0) s = (s, 0) := by
  intro fuel s
  cases fuel <;> cases s <;> simp [rsubF]

/-- Any sufficient amount of fuel computes the same result as the canonical
amount `s.length`. -/
theorem rsubF_fuel_irrel (pat : List RTok) (tmpl : List Tmpl) :
    ∀ (n fuel : Nat) (cnt : Option Nat) (s : List Char),
      s.length ≤ n → s.length ≤ fuel →
      rsubF pat tmpl fuel cnt s = rsubF pat tmpl s.length cnt s := by
  intro n
  induction n with
  | zero =>
    intro fuel cnt s h1 _
    have : s = [] := by
      cases s with
      | nil => rfl
      | cons c rest => simp at h1
    subst this
    cases fuel <;> simp [rsubF]
  | succ n ihn =>
    intro fuel cnt s h1 h2
    cases s with
    | nil => cases fuel <;> simp [rsubF]
    | cons c rest =>
      cases fuel with
      | zero => simp at h2
      | succ f =>
        simp only [List.length_cons] at h1 h2 ⊢
        by_cases hc : cnt = some 0
        · subst hc
          rw [rsubF_some_zero, rsubF_some_zero]
        · simp only [rsubF, if_neg hc]
          cases hm : matchToks pat (c :: rest) with
          | none =>
            simp only []
            rw [ihn f cnt rest (by omega) (by omega)]
          | some pr =>
            obtain ⟨caps, rem⟩ := pr
            simp only []
            by_cases hr : rem.length ≤ rest.length
            · simp only [if_pos hr]
              rw [ihn f (cnt.map (· - 1)) rem (by omega) (by omega),
                  ihn rest.length (cnt.map (· - 1)) rem (by omega) (by omega)]
            · simp only [if_neg hr]

/-- Fuel elimination: `rsubF` with adequate fuel is `rsub`. -/
theorem rsubF_eq_rsub (pat : List RTok) (tmpl : List Tmpl) (fuel : Nat)
    (cnt : Option Nat) (s : List Char) (h : s.length ≤ fuel) :
    rsubF pat tmpl fuel cnt s = rsub pat tmpl cnt s :=
  rsubF_fuel_irrel pat tmpl s.length fuel cnt s (Nat.le_refl _) h

/-- A scan that performs zero replacements returns its input unchanged. -/
theorem rsubF_count_zero (pat : List RTok) (tmpl : List Tmpl) :
    ∀ (fuel : Nat) (cnt : Option Nat) (s : List Char),
      (rsubF pat tmpl fuel cnt s).2 = 0 → (rsubF pat tmpl fuel cnt s).1 = s := by
  intro fuel
  induction fuel with
  | zero =>
    intro cnt s _
    cases s <;> simp [rsubF]
  | succ f ihf =>
    intro cnt s h
    cases s with
    | nil => simp [rsubF]
    | cons c rest =>
      by_cases hc : cnt = some 0
      · simp [rsubF, hc]
      · cases hm : matchToks pat (c :: rest) with
        | none =>
          simp only [rsubF, if_neg hc, hm] at h ⊢
          rw [ihf cnt rest h]
        | some pr =>
          obtain ⟨caps, rem⟩ := pr
          by_cases hr : rem.length ≤ rest.length
          · simp [rsubF, hc, hm, hr] at h
          · simp [rsubF, hc, hm, hr]

/-- `re.sub` with zero replacements is the identity on the text. -/
theorem rsub_count_zero (pat : List RTok) (tmpl : List Tmpl) (cnt : Option Nat)
    (s : List Char) (h : (rsub pat tmpl cnt s).2 = 0) :
    (rsub pat tmpl cnt s).1 = s :=
  rsubF_count_zero pat tmpl s.length cnt s h

/-- Scanning a region in which the pattern matches at no position copies
that region verbatim and continues behind it. -/
theorem rsubF_skip (pat : List RTok) (tmpl : List Tmpl) :
    ∀ (a : List Char) (fuel : Nat) (cnt : Option Nat) (rest : List Char),
      (∀ i < a.length, matchToks pat ((a ++ rest).drop i) = none) →
      (a ++ rest).length ≤ fuel →
      rsubF pat tmpl fuel cnt (a ++ rest) =
        (a ++ (rsubF pat tmpl (fuel - a.length) cnt rest).1,
         (rsubF pat tmpl (fuel - a.length) cnt rest).2) := by
  intro a
  induction a with
  | nil =>
    intro fuel cnt rest _ _
    simp
  | cons c a' iha =>
    intro fuel cnt rest h hle
    cases fuel with
    | zero => simp at hle
    | succ f =>
      by_cases hc : cnt = some 0
      · subst hc
        rw [rsubF_some_zero, rsubF_some_zero]
      · have h0 : matchToks pat (c :: (a' ++ rest)) = none := by
          have := h 0 (by simp)
          simpa using this
        simp only [List.cons_append, List.length_cons] at hle ⊢
        simp only [rsubF, if_neg hc, h0]
        have h' : ∀ i < a'.length, matchToks pat ((a' ++ rest).drop i) = none := by
          intro i hi
          have := h (i + 1) (by simp; omega)
          simpa [List.drop_succ_cons] using this
        rw [iha f cnt rest h' (by simpa using Nat.le_of_succ_le_succ hle)]
        simp [Nat.succ_sub_succ]

/-- `re.sub` on `a ++ rest` where no match starts inside `a`: the prefix
`a` is copied verbatim and rewriting proceeds on `rest`. -/
theorem rsub_skip (pat : List RTok) (tmpl : List Tmpl) (cnt : Option Nat)
    (a rest : List Char)
    (h : ∀ i < a.length, matchToks pat ((a ++ rest).drop i) = none) :
    rsub pat tmpl cnt (a ++ rest) =
      (a ++ (rsub pat tmpl cnt rest).1, (rsub pat tmpl cnt rest).2) := by
  unfold rsub
  rw [rsubF_skip pat tmpl a (a ++ rest).length cnt rest h (Nat.le_refl _)]
  have hl : (a ++ rest).length - a.length = rest.length := by simp
  rw [hl]

/-- `re.sub` on a text whose head position matches: the replacement is
emitted and scanning continues after the matched text with the count
bound decremented. -/
theorem rsub_head (pat : List RTok) (tmpl : List Tmpl) (cnt : Option Nat)
    (s rem : List Char) (caps : List (List Char))
    (hm : matchToks pat s = some (caps, rem)) (hlt : rem.length < s.length)
    (hc : cnt ≠ some 0) :
    rsub pat tmpl cnt s =
      (instTmpl caps tmpl ++ (rsub pat tmpl (cnt.map (· - 1)) rem).1,
       (rsub pat tmpl (cnt.map (· - 1)) rem).2 + 1) := by
  cases s with
  | nil => simp at hlt
  | cons c rest =>
    simp only [List.length_cons] at hlt
    unfold rsub
    simp only [List.length_cons]
    simp only [rsubF, if_neg hc, hm]
    have hr : rem.length ≤ rest.length := by omega
    simp only [if_pos hr]
    rw [rsubF_eq_rsub pat tmpl rest.length (cnt.map (· - 1)) rem hr,
        rsubF_eq_rsub pat tmpl rem.length (cnt.map (· - 1)) rem (Nat.le_refl _)]

/-- A list is a Boolean prefix of itself followed by anything. -/
theorem isPrefixOf_append_self (P post : List Char) :
    P.isPrefixOf (P ++ post) = true := by
  induction P with
  | nil => simp [List.isPrefixOf]
  | cons c P ih => simp [List.isPrefixOf, ih]

/-- Dropping the length of the first component of an append. -/
theorem drop_length_append (P post : List Char) :
    (P ++ post).drop P.length = post := by
  induction P with
  | nil => rfl
  | cons c P ih => simp [ih]

/-- Taking the length of the first component of an append. -/
theorem take_length_append (P post : List Char) :
    (P ++ post).take P.length = P := by
  induction P with
  | nil => rfl
  | cons c P ih => simp [ih]

/-- `takeWhile` stops exactly at the first character failing the class. -/
theorem takeWhile_append_stop (p : Char → Bool) (arg : List Char) (c : Char)
    (post : List Char) (hall : ∀ a ∈ arg, p a = true) (hc : p c = false) :
    (arg ++ c :: post).takeWhile p = arg := by
  induction arg with
  | nil => simp [List.takeWhile, hc]
  | cons a arg ih =>
    have ha : p a = true := hall a (by simp)
    simp only [List.cons_append, List.takeWhile, ha, List.append_eq]
    rw [ih (fun x hx => hall x (by simp [hx]))]

/-- The candidate lengths a greedy repetition tries, largest first: the
maximal run length heads the list as soon as it is at least one. -/
theorem filter_range_reverse_cons (n : Nat) (hn : 1 ≤ n) :
    ((List.range (n + 1)).filter (fun k => decide (1 ≤ k))).reverse =
      n :: ((List.range n).filter (fun k => decide (1 ≤ k))).reverse := by
  rw [List.range_succ, List.filter_append, List.reverse_append]
  simp [hn]

/-- The match a single-literal pattern reports at the start of a text
beginning with that literal. -/
theorem matchToks_lit_self (P post : List Char) :
    matchToks [.lit P] (P ++ post) = some ([], post) := by
  unfold matchToks
  simp [matchAll, isPrefixOf_append_self, drop_length_append]

/-- The match of a `literal, captured class repetition, one-character
literal` pattern — the shape of the validate_room_name / sanitize_content
rules — at the start of a text of the matching form: the whole class run
is captured and the scan resumes right after the closing character. -/
theorem matchToks_lit_rep_lit (L : List Char) (p : Char → Bool)
    (arg : List Char) (c : Char) (post : List Char) (harg : arg ≠ [])
    (hall : ∀ a ∈ arg, p a = true) (hc : p c = false) :
    matchToks [.lit L, .rep p true true, .lit [c]] (L ++ (arg ++ c :: post)) =
      some ([arg], post) := by
  have hlen : 1 ≤ arg.length := by
    cases arg with
    | nil => simp at harg
    | cons a l => simp
  unfold matchToks
  rw [matchAll]
  rw [if_pos (isPrefixOf_append_self L _), drop_length_append]
  rw [matchAll]
  rw [takeWhile_append_stop p arg c post hall hc]
  simp only [if_true]
  rw [filter_range_reverse_cons arg.length hlen]
  rw [List.flatMap_cons]
  rw [drop_length_append arg (c :: post)]
  have hcp : matchAll [RTok.lit [c]] (c :: post) = [([], post)] := by
    have : [c] ++ post = c :: post := rfl
    rw [← this, matchAll, if_pos (isPrefixOf_append_self [c] post),
        drop_length_append, matchAll]
  rw [hcp]
  simp [take_length_append]

/-- Rule sets compose: applying `rs1 ++ rs2` is applying `rs2` to the
output of `rs1`, with the replacement counts adding up. -/
theorem applyRules_append (rs1 rs2 : List Rule) (s : List Char) :
    applyRules (rs1 ++ rs2) s =
      ((applyRules rs2 (applyRules rs1 s).1).1,
       (applyRules rs1 s).2 + (applyRules rs2 (applyRules rs1 s).1).2) := by
  induction rs1 generalizing s with
  | nil => simp [applyRules]
  | cons r rs ih =>
    simp only [List.cons_append, applyRules, List.append_eq]
    rw [ih]
    simp [Nat.add_assoc]

/-- A rule set that made zero replacements changed nothing. -/
theorem applyRules_count_zero (rs : List Rule) (s : List Char)
    (h : (applyRules rs s).2 = 0) : (applyRules rs s).1 = s := by
  induction rs generalizing s with
  | nil => simp [applyRules]
  | cons r rest ih =>
    simp only [applyRules] at h ⊢
    have h1 : (rsub r.pat r.tmpl r.cnt s).2 = 0 := by omega
    have h2 : (applyRules rest (rsub r.pat r.tmpl r.cnt s).1).2 = 0 := by omega
    rw [rsub_count_zero r.pat r.tmpl r.cnt s h1] at h2 ⊢
    exact ih s h2

/-- An exhausted count bound leaves the text untouched, at `rsub` level. -/
theorem rsub_some_zero (pat : List RTok) (tmpl : List Tmpl) (s : List Char) :
    rsub pat tmpl (some 0) s = (s, 0) :=
  rsubF_some_zero pat tmpl s.length s

/-- A one-rule set is a single `re.sub` call. -/
theorem applyRules_singleton (r : Rule) (s : List Char) :
    applyRules [r] s = ((rsub r.pat r.tmpl r.cnt s).1, (rsub r.pat r.tmpl r.cnt s).2) := by
  simp [applyRules]


/-- C1, counterexample: the expanded rules for field names
`["id", "status"]` leave the line `result.id` untouched — they do not
match a member access with receiver `result`, contradicting the claim
that `result.id` is rewritten into a defensive accessor. -/
theorem c1_field_receiver_counterexample :
    (applyRules (fieldRules ["id", "status"]) "result.id".data).1 = "result.id".data
    ∧ "result.id".data ≠ "result.try_get(\"id\").unwrap_or_default()".data := by
  constructor
  · decide
  · decide

/-- C1, amended: expanding `["id", "status"]` yields exactly two rules;
each matches a member access whose receiver is the literal identifier
`row`, so `row.id` is rewritten into the defensive accessor
`row.try_get("id").unwrap_or_default()` while `result.id` and
`result.other_field` are left untouched. -/
theorem c1_field_rules_amended :
    (fieldRules ["id", "status"]).length = 2
    ∧ (applyRules (fieldRules ["id", "status"]) "row.id".data).1 =
        "row.try_get(\"id\").unwrap_or_default()".data
    ∧ (applyRules (fieldRules ["id", "status"]) "row.status".data).1 =
        "row.try_get(\"status\").unwrap_or_default()".data
    ∧ (applyRules (fieldRules ["id", "status"]) "result.id".data).1 = "result.id".data
    ∧ (applyRules (fieldRules ["id", "status"]) "result.other_field".data).1 =
        "result.other_field".data := by
  refine ⟨by decide, by decide, by decide, by decide, by decide⟩

/-- C2, counterexample: on a file whose content produces zero
replacements, `fix_message_store_errors` still performs a write (the
write log gains an entry for the path), contradicting the claim that a
no-op rule set never touches the file's modification state. -/
theorem c2_writeback_counterexample :
    fix_message_store_errors
        ⟨[("src/message_store.rs", "fn main() \x7b\x7d")], [], []⟩ =
      .ok ⟨[("src/message_store.rs", "fn main() \x7b\x7d")],
           [("src/message_store.rs", "fn main() \x7b\x7d")],
           ["✅ Corrigé src/message_store.rs"]⟩
    ∧ (applyRules messageStoreRules "fn main() \x7b\x7d".data).2 = 0 := by
  constructor
  · rfl
  · decide

/-- C2, amended: the transformed text is written back unconditionally —
whenever the target file exists, the fixer writes the (possibly
identical) transformed content and logs the write, whether or not any
rule produced a change. -/
theorem c2_writeback_amended (fs writes : List (String × String))
    (reports : List String) (c : String)
    (h : readFS fs "src/message_store.rs" = some c) :
    fix_message_store_errors ⟨fs, writes, reports⟩ =
      .ok ⟨writeFS fs "src/message_store.rs" (fixMessageStoreStr c),
           writes ++ [("src/message_store.rs", fixMessageStoreStr c)],
           reports ++ ["✅ Corrigé src/message_store.rs"]⟩ := by
  unfold fix_message_store_errors
  simp only [h]

/-- C3, counterexample: a run over a filesystem holding only
`src/message_handler.rs` (whose content the handler rules would change)
aborts with FileNotFoundError on `src/message_store.rs`: no outcome is
recorded for any file and the handler file is never processed,
contradicting the claim that the run records the failure and continues. -/
theorem c3_missing_file_counterexample :
    runFixes ⟨[("src/message_handler.rs",
        "self.content_filter.validate_room_name(name)")], [], []⟩ =
      .error (.fileNotFound "src/message_store.rs")
    ∧ fixMessageHandlerStr "self.content_filter.validate_room_name(name)" ≠
        "self.content_filter.validate_room_name(name)" := by
  constructor
  · rfl
  · decide

/-- C3, amended: when `src/message_store.rs` does not exist, the whole
run fails with FileNotFoundError for that path: the exception propagates
out of the first fixer, no per-file outcome is recorded, and none of the
remaining target files is processed. -/
theorem c3_missing_file_amended (st : RunState)
    (h : readFS st.fs "src/message_store.rs" = none) :
    runFixes st = .error (.fileNotFound "src/message_store.rs") := by
  unfold runFixes fix_message_store_errors
  rw [h]
  rfl

set_option maxRecDepth 100000 in
/-- C4, counterexample: the full message-store rule set is not idempotent.
On `ChatError::ReactionAlreadyExists))` one application removes a single
closing parenthesis (the scan resumes after the replaced text), so a
second application changes the text again. -/
theorem c4_idempotence_counterexample :
    (applyRules messageStoreRules
        (applyRules messageStoreRules "ChatError::ReactionAlreadyExists))".data).1).1 ≠
      (applyRules messageStoreRules "ChatError::ReactionAlreadyExists))".data).1 := by
  decide

/-- C4, amended: if the full message-store rule set performs zero
replacements on a text, the text is returned byte-for-byte unchanged;
idempotence in general fails because one application can leave new
occurrences of a pattern behind. -/
theorem c4_zero_replacements_identity (s : List Char)
    (h : (applyRules messageStoreRules s).2 = 0) :
    (applyRules messageStoreRules s).1 = s :=
  applyRules_count_zero messageStoreRules s h

/-- C4, witness for the amended theorem at a concrete already-clean text. -/
theorem c4_zero_replacements_identity_witness :
    (applyRules messageStoreRules "fn main() \x7b\x7d".data).2 = 0
    ∧ (applyRules messageStoreRules "fn main() \x7b\x7d".data).1 =
        "fn main() \x7b\x7d".data :=
  ⟨by decide, c4_zero_replacements_identity "fn main() \x7b\x7d".data (by decide)⟩

/-- C2, witness for the amended theorem at a concrete filesystem. -/
theorem c2_writeback_amended_witness :
    readFS [("src/message_store.rs", "fn x")] "src/message_store.rs" = some "fn x"
    ∧ fix_message_store_errors ⟨[("src/message_store.rs", "fn x")], [], []⟩ =
        .ok ⟨writeFS [("src/message_store.rs", "fn x")] "src/message_store.rs"
               (fixMessageStoreStr "fn x"),
             [] ++ [("src/message_store.rs", fixMessageStoreStr "fn x")],
             [] ++ ["✅ Corrigé src/message_store.rs"]⟩ :=
  ⟨by decide, c2_writeback_amended [("src/message_store.rs", "fn x")] [] [] "fn x" (by decide)⟩

/-- C3, witness for the amended theorem at a concrete empty filesystem. -/
theorem c3_missing_file_amended_witness :
    readFS ([] : List (String × String)) "src/message_store.rs" = none
    ∧ runFixes ⟨[], [], []⟩ = .error (.fileNotFound "src/message_store.rs") :=
  ⟨by decide, c3_missing_file_amended ⟨[], [], []⟩ (by decide)⟩

/-- C5, confirmed: the scoped-deletion rule of `fix_error_severity`
(`count=1`) applied to a text with three occurrences of the duplicated
severity line removes exactly the first occurrence (the hypothesis says
the displayed first occurrence is the leftmost one) and leaves the other
two untouched, reporting exactly one replacement. -/
theorem c5_scoped_deletion_first_only (a b c d : List Char)
    (h : ∀ i < a.length, matchToks [RTok.lit severityPat]
        ((a ++ (severityPat ++ (b ++ (severityPat ++ (c ++ (severityPat ++ d)))))).drop i) =
        none) :
    applyRules errorSeverityRules
        (a ++ (severityPat ++ (b ++ (severityPat ++ (c ++ (severityPat ++ d)))))) =
      (a ++ (b ++ (severityPat ++ (c ++ (severityPat ++ d)))), 1) := by
  have hlen : 0 < severityPat.length := by decide
  simp only [errorSeverityRules, applyRules_singleton, ruleMessageTooLong]
  rw [rsub_skip _ _ _ a _ h]
  rw [rsub_head _ _ _ _ _ _ (matchToks_lit_self severityPat _)
        (by simp only [List.length_append]; omega) (by simp)]
  simp [rsub_some_zero, instTmpl]

/-- C5, witness at a concrete text with three occurrences. -/
theorem c5_scoped_deletion_first_only_witness :
    (∀ i < ("x ".data).length, matchToks [RTok.lit severityPat]
        (("x ".data ++ (severityPat ++ (" y ".data ++ (severityPat ++
          (" z ".data ++ (severityPat ++ " w".data)))))).drop i) = none)
    ∧ applyRules errorSeverityRules
        ("x ".data ++ (severityPat ++ (" y ".data ++ (severityPat ++
          (" z ".data ++ (severityPat ++ " w".data)))))) =
      ("x ".data ++ (" y ".data ++ (severityPat ++
          (" z ".data ++ (severityPat ++ " w".data)))), 1) :=
  ⟨by decide, c5_scoped_deletion_first_only "x ".data " y ".data " z ".data " w".data
    (by decide)⟩

/-- C6, counterexample: the write of lines 79-80 is not atomic — among
the on-disk states reachable when the write is interrupted there is
`"x"`, which is neither the complete original content `"abc"` nor the
complete transformed content `"xyz"`. -/
theorem c6_atomic_write_counterexample :
    "x".data ∈ writeStates "abc".data "xyz".data
    ∧ "x".data ≠ "abc".data ∧ "x".data ≠ "xyz".data := by
  refine ⟨by decide, by decide, by decide⟩

/-- C6, amended: the write truncates in place and then emits the new
content sequentially, so an interruption leaves either the original
content or some prefix (possibly empty, possibly complete) of the new
content — never anything else. -/
theorem c6_truncating_write_amended (o n s : List Char)
    (h : s ∈ writeStates o n) :
    s = o ∨ ∃ k, k ≤ n.length ∧ s = n.take k := by
  simp only [writeStates, List.mem_cons, List.mem_map, List.mem_range] at h
  rcases h with h | ⟨k, hk, hs⟩
  · exact Or.inl h
  · exact Or.inr ⟨k, by omega, hs.symm⟩

/-- C6, witness for the amended theorem at a concrete interrupted state. -/
theorem c6_truncating_write_amended_witness :
    "x".data ∈ writeStates "abc".data "xyz".data
    ∧ ("x".data = "abc".data ∨
        ∃ k, k ≤ ("xyz".data).length ∧ "x".data = ("xyz".data).take k) :=
  ⟨by decide, c6_truncating_write_amended "abc".data "xyz".data "x".data (by decide)⟩

/-- C7, confirmed: the rewriter is the left-to-right composition of its
rules — appending rule lists composes their effects, so every rule sees
the output of the previous ones; and the composition is not commutative:
swapping the `, Deserialize` rule (line 150) and the
`, Serialize, Deserialize` rule (line 153) of the unused-imports pass
changes the result on `, Serialize, Deserialize`. -/
theorem c7_sequential_composition :
    (∀ (rs1 rs2 : List Rule) (s : List Char),
        (applyRules (rs1 ++ rs2) s).1 = (applyRules rs2 (applyRules rs1 s).1).1)
    ∧ (applyRules [ruleCommaDeserialize, ruleCommaSerializeDeserialize]
          ", Serialize, Deserialize".data).1 ≠
        (applyRules [ruleCommaSerializeDeserialize, ruleCommaDeserialize]
          ", Serialize, Deserialize".data).1 := by
  constructor
  · intro rs1 rs2 s
    rw [applyRules_append]
  · decide

/-- C8, confirmed: a structural-rewrite rule application re-emits the
captured inner argument verbatim.  For the validate_room_name rule, on
any text whose first match site is the displayed call with argument
`arg` (nonempty, free of closing parentheses), the rewritten text holds
`arg` unchanged inside the new `validate_content(...)` call form. -/
theorem c8_capture_verbatim (pre arg post : List Char) (harg : arg ≠ [])
    (hargc : ∀ ch ∈ arg, notRParen ch = true)
    (hpre : ∀ i < pre.length, matchToks ruleValidateRoomName.pat
        ((pre ++ ("self.content_filter.validate_room_name(".data ++
          (arg ++ (')' :: post)))).drop i) = none) :
    (rsub ruleValidateRoomName.pat ruleValidateRoomName.tmpl ruleValidateRoomName.cnt
        (pre ++ ("self.content_filter.validate_room_name(".data ++
          (arg ++ (')' :: post))))).1 =
      pre ++ ("self.content_filter.validate_content(".data ++ (arg ++ (')' ::
        (rsub ruleValidateRoomName.pat ruleValidateRoomName.tmpl
          ruleValidateRoomName.cnt post).1))) := by
  have hpat : ruleValidateRoomName.pat =
      [RTok.lit "self.content_filter.validate_room_name(".data,
       RTok.rep notRParen true true, RTok.lit [')']] := rfl
  have htm : ruleValidateRoomName.tmpl =
      [Tmpl.lit "self.content_filter.validate_content(".data, Tmpl.ref 0,
       Tmpl.lit [')']] := rfl
  have hcm : ruleValidateRoomName.cnt = none := rfl
  rw [hpat] at hpre ⊢
  rw [htm, hcm]
  rw [rsub_skip _ _ _ pre _ hpre]
  rw [rsub_head _ _ _ _ _ _
        (matchToks_lit_rep_lit "self.content_filter.validate_room_name(".data
          notRParen arg ')' post harg hargc (by decide))
        (by simp only [List.length_append, List.length_cons]; omega) (by simp)]
  simp [instTmpl, List.append_assoc]

/-- C8, witness at a concrete call site. -/
theorem c8_capture_verbatim_witness :
    ("name".data ≠ []
      ∧ (∀ ch ∈ "name".data, notRParen ch = true)
      ∧ (∀ i < ("let r = ".data).length, matchToks ruleValidateRoomName.pat
          (("let r = ".data ++ ("self.content_filter.validate_room_name(".data ++
            ("name".data ++ (')' :: ";".data)))).drop i) = none))
    ∧ (rsub ruleValidateRoomName.pat ruleValidateRoomName.tmpl ruleValidateRoomName.cnt
        ("let r = ".data ++ ("self.content_filter.validate_room_name(".data ++
          ("name".data ++ (')' :: ";".data))))).1 =
      "let r = ".data ++ ("self.content_filter.validate_content(".data ++
        ("name".data ++ (')' ::
          (rsub ruleValidateRoomName.pat ruleValidateRoomName.tmpl
            ruleValidateRoomName.cnt ";".data).1))) :=
  ⟨⟨by decide, by decide, by decide⟩,
   c8_capture_verbatim "let r = ".data "name".data ";".data
     (by decide) (by decide) (by decide)⟩

/-- Strings with equal character data are equal. -/
theorem string_eq_of_data_eq (q p : String) (h : q.data = p.data) : q = p := by
  cases q with
  | mk qd =>
    cases p with
    | mk pd =>
      exact congrArg String.mk h

/-- Appending on the left is cancellative for character lists. -/
theorem char_append_left_cancel (a : List Char) :
    ∀ b c : List Char, a ++ b = a ++ c → b = c := by
  induction a with
  | nil => intro b c h; simpa using h
  | cons x a ih =>
    intro b c h
    simp only [List.cons_append, List.cons.injEq] at h
    exact ih b c h.2

/-- Distinct paths produce distinct report lines. -/
theorem report_line_ne (q p : String) (h : q ≠ p) :
    (("✅ Corrigé " ++ q) == ("✅ Corrigé " ++ p)) = false := by
  apply beq_eq_false_iff_ne.mpr
  intro hEq
  apply h
  apply string_eq_of_data_eq
  have hd := congrArg String.data hEq
  simp only [String.data_append] at hd
  exact char_append_left_cancel _ _ _ hd

/-- Writing one path leaves reads of any other path unchanged. -/
theorem readFS_writeFS_ne (fs : List (String × String)) (p q c : String)
    (h : p ≠ q) : readFS (writeFS fs p c) q = readFS fs q := by
  induction fs with
  | nil =>
    simp [writeFS, readFS, beq_eq_false_iff_ne.mpr h]
  | cons e rest ih =>
    by_cases he : (e.1 == p) = true
    · have he' : e.1 = p := by simpa using he
      have hq : (e.1 == q) = false := by
        rw [he']
        exact beq_eq_false_iff_ne.mpr h
      simp [writeFS, readFS, he, hq]
    · simp [writeFS, readFS, he, ih]

/-- The unused-imports pass only appends to the write log. -/
theorem unused_fold_writes_extend (paths : List String) :
    ∀ st : RunState, ∃ tail,
      (paths.foldl fixOneUnused st).writes = st.writes ++ tail := by
  induction paths with
  | nil => intro st; exact ⟨[], by simp⟩
  | cons q rest ih =>
    intro st
    simp only [List.foldl_cons]
    obtain ⟨tail, htail⟩ := ih (fixOneUnused st q)
    cases hq : readFS st.fs q with
    | none =>
      refine ⟨tail, ?_⟩
      rw [htail]
      simp [fixOneUnused, hq]
    | some c =>
      refine ⟨[(q, fixUnusedStr c)] ++ tail, ?_⟩
      rw [htail]
      simp [fixOneUnused, hq]

/-- A path missing from the filesystem is skipped by the whole
unused-imports pass: it is still missing afterwards, no write is logged
for it and no report line is printed for it. -/
theorem unused_fold_missing (paths : List String) :
    ∀ (st : RunState) (p : String), readFS st.fs p = none →
      readFS ((paths.foldl fixOneUnused st).fs) p = none
      ∧ (paths.foldl fixOneUnused st).writes.filter (fun e => e.1 == p) =
          st.writes.filter (fun e => e.1 == p)
      ∧ (paths.foldl fixOneUnused st).reports.filter
          (fun line => line == "✅ Corrigé " ++ p) =
          st.reports.filter (fun line => line == "✅ Corrigé " ++ p) := by
  induction paths with
  | nil => intro st p h; exact ⟨h, rfl, rfl⟩
  | cons q rest ih =>
    intro st p h
    simp only [List.foldl_cons]
    cases hq : readFS st.fs q with
    | none =>
      have hid : fixOneUnused st q = st := by simp [fixOneUnused, hq]
      rw [hid]
      exact ih st p h
    | some c =>
      have hqp : q ≠ p := by
        intro hEq
        rw [hEq] at hq
        rw [h] at hq
        exact Option.noConfusion hq
      have hst : fixOneUnused st q =
          ⟨writeFS st.fs q (fixUnusedStr c),
           st.writes ++ [(q, fixUnusedStr c)],
           st.reports ++ ["✅ Corrigé " ++ q]⟩ := by
        simp [fixOneUnused, hq]
      rw [hst]
      have h2 : readFS (writeFS st.fs q (fixUnusedStr c)) p = none := by
        rw [readFS_writeFS_ne st.fs q p _ hqp]
        exact h
      obtain ⟨ha, hb, hc2⟩ := ih ⟨writeFS st.fs q (fixUnusedStr c),
        st.writes ++ [(q, fixUnusedStr c)],
        st.reports ++ ["✅ Corrigé " ++ q]⟩ p h2
      refine ⟨ha, ?_, ?_⟩
      · rw [hb]
        simp [List.filter_append, beq_eq_false_iff_ne.mpr hqp]
      · rw [hc2]
        simp [List.filter_append, report_line_ne q p hqp]

/-- An existing path of the target list is processed: the pass logs a
write for it. -/
theorem unused_fold_processed (paths : List String) :
    ∀ (st : RunState) (q c : String), paths.Nodup → q ∈ paths →
      readFS st.fs q = some c →
      ∃ c2, (q, c2) ∈ (paths.foldl fixOneUnused st).writes := by
  induction paths with
  | nil =>
    intro st q c _ hmem _
    simp at hmem
  | cons r rest ih =>
    intro st q c hnd hmem hsome
    simp only [List.foldl_cons]
    rcases List.mem_cons.mp hmem with hqr | hqrest
    · subst hqr
      have hst : fixOneUnused st q =
          ⟨writeFS st.fs q (fixUnusedStr c),
           st.writes ++ [(q, fixUnusedStr c)],
           st.reports ++ ["✅ Corrigé " ++ q]⟩ := by
        simp [fixOneUnused, hsome]
      rw [hst]
      obtain ⟨tail, htail⟩ := unused_fold_writes_extend rest
        ⟨writeFS st.fs q (fixUnusedStr c),
         st.writes ++ [(q, fixUnusedStr c)],
         st.reports ++ ["✅ Corrigé " ++ q]⟩
      rw [htail]
      exact ⟨fixUnusedStr c, by simp⟩
    · have hrq : r ≠ q := by
        intro hEq
        subst hEq
        exact (List.nodup_cons.mp hnd).1 hqrest
      cases hr : readFS st.fs r with
      | none =>
        have hid : fixOneUnused st r = st := by simp [fixOneUnused, hr]
        rw [hid]
        exact ih st q c (List.nodup_cons.mp hnd).2 hqrest hsome
      | some cr =>
        have hst : fixOneUnused st r =
            ⟨writeFS st.fs r (fixUnusedStr cr),
             st.writes ++ [(r, fixUnusedStr cr)],
             st.reports ++ ["✅ Corrigé " ++ r]⟩ := by
          simp [fixOneUnused, hr]
        rw [hst]
        apply ih _ q c (List.nodup_cons.mp hnd).2 hqrest
        show readFS (writeFS st.fs r (fixUnusedStr cr)) q = some c
        rw [readFS_writeFS_ne st.fs r q _ hrq]
        exact hsome

/-- C9, confirmed: in the unused-imports pass every nonexistent target
path is skipped silently — it is never created, no write is logged for
it and no report line is printed for it — while every existing target
path is still processed (a write for it is logged). -/
theorem c9_missing_paths_skipped (st : RunState) (p : String)
    (h : readFS st.fs p = none) :
    readFS (fix_unused_imports st).fs p = none
    ∧ (fix_unused_imports st).writes.filter (fun e => e.1 == p) =
        st.writes.filter (fun e => e.1 == p)
    ∧ (fix_unused_imports st).reports.filter
        (fun line => line == "✅ Corrigé " ++ p) =
        st.reports.filter (fun line => line == "✅ Corrigé " ++ p)
    ∧ ∀ q c, q ∈ files_to_fix → readFS st.fs q = some c →
        ∃ c2, (q, c2) ∈ (fix_unused_imports st).writes := by
  obtain ⟨ha, hb, hc2⟩ := unused_fold_missing files_to_fix st p h
  exact ⟨ha, hb, hc2, fun q c hq hsome =>
    unused_fold_processed files_to_fix st q c (by decide) hq hsome⟩

/-- C9, witness at a concrete filesystem holding only `src/moderation.rs`. -/
theorem c9_missing_paths_skipped_witness :
    readFS (RunState.mk [("src/moderation.rs", "x")] [] []).fs "src/security.rs" = none
    ∧ (readFS (fix_unused_imports (RunState.mk [("src/moderation.rs", "x")] [] [])).fs
          "src/security.rs" = none
      ∧ (fix_unused_imports (RunState.mk [("src/moderation.rs", "x")] [] [])).writes.filter
          (fun e => e.1 == "src/security.rs") =
          (RunState.mk [("src/moderation.rs", "x")] [] []).writes.filter
            (fun e => e.1 == "src/security.rs")
      ∧ (fix_unused_imports (RunState.mk [("src/moderation.rs", "x")] [] [])).reports.filter
          (fun line => line == "✅ Corrigé " ++ "src/security.rs") =
          (RunState.mk [("src/moderation.rs", "x")] [] []).reports.filter
            (fun line => line == "✅ Corrigé " ++ "src/security.rs")
      ∧ ∀ q c, q ∈ files_to_fix →
          readFS (RunState.mk [("src/moderation.rs", "x")] [] []).fs q = some c →
          ∃ c2, (q, c2) ∈
            (fix_unused_imports (RunState.mk [("src/moderation.rs", "x")] [] [])).writes) :=
  ⟨by decide, c9_missing_paths_skipped (RunState.mk [("src/moderation.rs", "x")] [] [])
    "src/security.rs" (by decide)⟩

/-- C10, confirmed: the `, error` rule of the unused-imports pass removes
an occurrence of the plain substring `, error` wherever it stands — in
any context, import list or inside a longer identifier — and the whole
pass maps `, error_count` to `_count`. -/
theorem c10_comma_error_everywhere :
    (∀ pre post : List Char,
        (∀ i < pre.length, matchToks ruleCommaError.pat
            ((pre ++ (", error".data ++ post)).drop i) = none) →
        (rsub ruleCommaError.pat ruleCommaError.tmpl ruleCommaError.cnt
            (pre ++ (", error".data ++ post))).1 =
          pre ++ (rsub ruleCommaError.pat ruleCommaError.tmpl ruleCommaError.cnt
            post).1)
    ∧ (applyRules unusedImportRules ", error_count".data).1 = "_count".data := by
  constructor
  · intro pre post h
    have hpat : ruleCommaError.pat = [RTok.lit ", error".data] := rfl
    have htm : ruleCommaError.tmpl = [Tmpl.lit "".data] := rfl
    have hcm : ruleCommaError.cnt = none := rfl
    rw [hpat] at h ⊢
    rw [htm, hcm]
    rw [rsub_skip _ _ _ pre _ h]
    have hlt : post.length < (", error".data ++ post).length := by
      have hl : (", error".data).length = 7 := by decide
      simp [List.length_append, hl]
      omega
    rw [rsub_head _ _ _ _ _ _ (matchToks_lit_self ", error".data post)
          hlt (by simp)]
    have hinst : instTmpl ([] : List (List Char)) [Tmpl.lit "".data] = [] := rfl
    rw [hinst]
    simp
  · decide

/-- C10, witness at the occurrence inside the identifier `error_count`. -/
theorem c10_comma_error_everywhere_witness :
    (∀ i < ("x".data).length, matchToks ruleCommaError.pat
        (("x".data ++ (", error".data ++ "_count".data)).drop i) = none)
    ∧ (rsub ruleCommaError.pat ruleCommaError.tmpl ruleCommaError.cnt
        ("x".data ++ (", error".data ++ "_count".data))).1 =
      "x".data ++ (rsub ruleCommaError.pat ruleCommaError.tmpl ruleCommaError.cnt
        "_count".data).1 :=
  ⟨by decide, c10_comma_error_everywhere.1 "x".data "_count".data (by decide)⟩
